import Mathlib

/-!
Verification of the vrada data-loading and model-assembly code.

The Python sources `load_data.py` and `model.py` are shallowly embedded:

* numpy arrays become `List`-based tensors over `ℚ` (exact rationals stand in
  for floating-point values; `ℝ` is used only where the code takes logarithms);
* the Python `random.Random(seed).shuffle` Fisher-Yates shuffle is embedded
  with an oracle `randJ : ℕ → ℕ` supplying the raw draws (the draw at loop
  index `i` is reduced mod `i+1`, exactly the range `randbelow(i+1)` yields);
* `np.random.RandomState(seed).permutation(n)` is embedded as an oracle
  `perm : ℕ → List ℕ`; theorems hypothesise `(perm n).Perm (List.range n)`,
  which is the contract numpy guarantees;
* fallible numpy operations (`np.vstack []`, out-of-range indexing) and the
  Python `assert` statements return `Except LoadError` values.
-/

namespace Vrada

/-- Failure modes of the loaders: `shapeError` for the shape `assert`s,
`valueError` for numpy `ValueError`s (stacking an empty list, unpacking an
empty zip), `indexError` for out-of-range array indexing, and
`missingDomainError` when a required named domain file is absent. -/
inductive LoadError where
  | shapeError
  | valueError
  | indexError
  | missingDomainError
deriving DecidableEq

/-- A 2-D array embedded as a list of rows. -/
abbrev Mat := List (List ℚ)

/-- The second dimension of a 2-D array (the length of its first row). -/
def width (m : List (List α)) : ℕ := (m.headD []).length

/-- Ceiling `math.ceil` of a rational, clamped to `ℕ`. A negative ceiling
(possible only for a negative fraction) is clamped to 0, where Python's slice
`xs[:k]` would instead count from the end of the list; the loaders are only
meant to run with fractions in `[0, 1]`, where the two semantics agree. -/
def ceilNat (q : ℚ) : ℕ := (Int.ceil q).toNat

/-! ### Seeded shuffles (`load_data.py` lines 114-127) -/

/-- Swap the elements at positions `i` and `j`; identity when either index is
out of range (in `fisherYates` both indices are always in range). -/
def swapList (l : List α) (i j : ℕ) : List α :=
  match l[i]?, l[j]? with
  | some a, some b => (l.set i b).set j a
  | _, _ => l

/-- The loop of `random.Random(seed).shuffle`: for `i = k, k-1, ..., 1`
swap position `i` with position `randbelow(i+1)`. -/
def fisherYatesAux (randJ : ℕ → ℕ) : ℕ → List α → List α
  | 0, l => l
  | k+1, l => fisherYatesAux randJ k (swapList l (k+1) (randJ (k+1) % (k+2)))

/-- Python `random.Random(seed).shuffle`, with the random draws supplied by `randJ`. -/
def fisherYates (randJ : ℕ → ℕ) (l : List α) : List α :=
  fisherYatesAux randJ (l.length - 1) l

/-- The function `shuffle_together(a, b, seed)`: zip the two lists, shuffle the pairs with
the seeded generator, and unzip. -/
def shuffle_together (a : List α) (b : List β) (randJ : ℕ → ℕ) :
    List α × List β :=
  (fisherYates randJ (a.zip b)).unzip

/-- Single-element numpy indexing: `l[i]`, an `IndexError` when out of range. -/
def npIndex (l : List α) (i : ℕ) : Except LoadError α :=
  match l[i]? with
  | some v => .ok v
  | none => .error .indexError

/-- numpy fancy indexing `l[p]` for an index array `p`. -/
def npFancyIndex (l : List α) : List ℕ → Except LoadError (List α)
  | [] => .ok []
  | i :: rest =>
    match npIndex l i, npFancyIndex l rest with
    | .ok v, .ok vs => .ok (v :: vs)
    | .error e, _ => .error e
    | _, .error e => .error e

/-- The function `shuffle_together_np(a, b, seed)`: draw `p = rand.permutation(len(a))`
(the oracle `perm` supplies it) and return `a[p], b[p]`. -/
def shuffle_together_np (a : List α) (b : List β) (perm : ℕ → List ℕ) :
    Except LoadError (List α × List β) :=
  match npFancyIndex a (perm a.length), npFancyIndex b (perm a.length) with
  | .ok a2, .ok b2 => .ok (a2, b2)
  | .error e, _ => .error e
  | _, .error e => .error e

/-! ### One-hot encoding (`load_data.py` lines 70-104) -/

/-- Truncation `astype(int)` of a rational toward zero. -/
def truncQ (q : ℚ) : ℤ := q.num.tdiv q.den

/-- Row `k` of `np.eye(n)`. -/
def eyeRow (n k : ℕ) : List ℚ := (List.range n).map (fun j => if j = k then 1 else 0)

/-- Indexing `np.eye(n)[i]` with Python semantics: `i ∈ [0, n)` selects row `i`,
`i ∈ [-n, 0)` selects row `n + i`, anything else is an `IndexError`. -/
def npEyeIndex (n : ℕ) (i : ℤ) : Except LoadError (List ℚ) :=
  if 0 ≤ i ∧ i < (n : ℤ) then .ok (eyeRow n i.toNat)
  else if -(n : ℤ) ≤ i ∧ i < 0 then .ok (eyeRow n (i + n).toNat)
  else .error .indexError

/-- Fancy indexing `np.eye(n)[idx]` for an index vector `idx`: one row per index. -/
def npEyeRows (n : ℕ) : List ℤ → Except LoadError (List (List ℚ))
  | [] => .ok []
  | i :: rest =>
    match npEyeIndex n i, npEyeRows n rest with
    | .ok r, .ok rs => .ok (r :: rs)
    | .error e, _ => .error e
    | _, .error e => .error e

/-- The label branch of `one_hot` for a squeezed 1-D integer index array:
optionally subtract 1 (`index_one`), then index into `np.eye(num_classes)`. -/
def one_hot_y_1d (y : List ℤ) (numClasses : ℕ) (indexOne : Bool) :
    Except LoadError (List (List ℚ)) :=
  npEyeRows numClasses (if indexOne then y.map (fun v => v - 1) else y)

/-- The label branch of `one_hot` for a 2-D label array `y`:
`np.squeeze(y)` stays 2-D exactly when neither dimension is 1, in which case
`y` passes through unchanged (the float cast is the identity here) after the
`assert y.shape[1] == num_classes`; otherwise the squeezed 1-D vector is cast
to int and one-hot encoded. -/
def one_hot_y_2d (y : Mat) (numClasses : ℕ) (indexOne : Bool) :
    Except LoadError Mat :=
  if y.length = 1 ∨ width y = 1 then
    let squeezed : List ℚ := if y.length = 1 then y.headD [] else y.map (fun r => r.headD 0)
    one_hot_y_1d (squeezed.map truncQ) numClasses indexOne
  else
    if width y = numClasses then .ok y else .error .shapeError

/-! ### Windowing (`load_data.py` lines 583-603) -/

/-- The function `create_windows(x, y, window_size)`: window `i` concatenates the time axes
of `x[i : i+window_size]` and takes label `y[i+window_size-1]`, for
`i ∈ range(len(y) - window_size)`; the final `np.vstack`/`np.hstack` raise a
`ValueError` when the window list is empty. -/
def create_windows (x : List Mat) (y : List ℚ) (window_size : ℕ) :
    Except LoadError (List Mat × List ℚ) :=
  let wx := (List.range (y.length - window_size)).map
    (fun i => ((x.drop i).take window_size).flatten)
  let wy := (List.range (y.length - window_size)).map
    (fun i => y.getD (i + window_size - 1) 0)
  if wx.isEmpty then .error .valueError else .ok (wx, wy)

/-! ### The grouped/subject (sleep) loader (`load_data.py` lines 130-236) -/

/-- One `*.npy` sleep file: a subject id, per-sample stage labels, and the real
and imaginary parts of the complex RF tensor (rows are features, columns are
raw samples). -/
structure SleepFile where
  subject : ℕ
  stage : List ℕ
  rfRe : Mat
  rfIm : Mat

/-- Example `k` of a file after
`np.transpose(np.reshape(rf, (rf.shape[0], -1, n)))`: entry `(t, f)` is
`rf[f][t*n + k]`. -/
def sleepExample (rf : Mat) (n k : ℕ) : Mat :=
  (List.range 750).map (fun t => rf.map (fun row => row.getD (t * n + k) 0))

/-- Per-file processing of the sleep loader: stack real and imaginary feature
rows, check `len(stage) * 750 == rf.shape[-1]`, reshape/transpose into
per-sample examples, drop samples labelled 6 or above, and check the feature
count is 10. -/
def processFile (f : SleepFile) : Except LoadError (ℕ × List Mat × List ℕ) :=
  let rf := f.rfRe ++ f.rfIm
  let n := f.stage.length
  if n * 750 ≠ (rf.headD []).length then .error .shapeError
  else
    let x := (List.range n).map (fun k => sleepExample rf n k)
    let keep := (x.zip f.stage).filter (fun p => p.2 < 6)
    if rf.length ≠ 10 then .error .shapeError
    else .ok (f.subject, keep.map Prod.fst, keep.map Prod.snd)

/-- Insert a file's data into the per-subject table, appending below existing
data of the same subject (Python dicts preserve insertion order). -/
def updateSubject : List (ℕ × List Mat × List ℕ) → ℕ → List Mat → List ℕ →
    List (ℕ × List Mat × List ℕ)
  | [], s, xs, ys => [(s, xs, ys)]
  | (t, txs, tys) :: rest, s, xs, ys =>
    if t = s then (t, txs ++ xs, tys ++ ys) :: rest
    else (t, txs, tys) :: updateSubject rest s xs ys

/-- The file loop of `load_data_sleep`: process each file in turn, stopping at
the first failure, and group the results by subject. -/
def groupFold : List (ℕ × List Mat × List ℕ) → List SleepFile →
    Except LoadError (List (ℕ × List Mat × List ℕ))
  | acc, [] => .ok acc
  | acc, f :: rest =>
    match processFile f with
    | .ok r => groupFold (updateSubject acc r.1 r.2.1 r.2.2) rest
    | .error e => .error e

/-- The file loop of `load_data_sleep`, started from the empty table. -/
def groupSubjects (files : List SleepFile) :
    Except LoadError (List (ℕ × List Mat × List ℕ)) :=
  groupFold [] files

/-- Stacking `np.vstack` / `np.hstack`: concatenation, a `ValueError` on an empty list. -/
def vstack (ls : List (List α)) : Except LoadError (List α) :=
  if ls.isEmpty then .error .valueError else .ok ls.flatten

/-- The eight arrays every loader returns. -/
structure SplitData (X Y : Type) where
  train_data_a : List X
  train_labels_a : List Y
  test_data_a : List X
  test_labels_a : List Y
  train_data_b : List X
  train_labels_b : List Y
  test_data_b : List X
  test_labels_b : List Y

/-- The fractional train/test cut shared by both loaders:
`end = math.ceil(train_percent * len(y))`, train is `[:end]`, test `[end:]`. -/
def splitTrainTest (ax : List X) (ay : List Y) (tp : ℚ) :
    (List X × List Y) × (List X × List Y) :=
  let e := ceilNat (tp * (ay.length : ℚ))
  ((ax.take e, ay.take e), (ax.drop e, ay.drop e))

/-- The per-domain tail shared by both loaders: reshuffle the domain's data
and labels together with the numpy generator, then cut into train/test. -/
def domainSplit (ax : List X) (ay : List Y) (perm : ℕ → List ℕ) (tp : ℚ) :
    Except LoadError ((List X × List Y) × (List X × List Y)) :=
  match shuffle_together_np ax ay perm with
  | .ok (x2, y2) => .ok (splitTrainTest x2 y2 tp)
  | .error e => .error e

/-- The shape `assert` of the sleep loader fails on `f` exactly when
`len(stage) * 750` differs from the RF tensor's sample count. -/
def badShape (f : SleepFile) : Prop :=
  f.stage.length * 750 ≠ ((f.rfRe ++ f.rfIm).headD []).length

/-- The post-grouping phase of `load_data_sleep`: shuffle the subject order,
cut the subject list at `ceil(domain_a_percent * count)`, concatenate each
domain, reshuffle each domain with the numpy generator, and split each domain
into train/test. -/
def sleepSplit (grouped : List (ℕ × List Mat × List ℕ))
    (domain_a_percent train_percent : ℚ) (randJ : ℕ → ℕ)
    (permA permB : ℕ → List ℕ) : Except LoadError (SplitData Mat ℕ) :=
  let xs0 := grouped.map (fun g => g.2.1)
  let ys0 := grouped.map (fun g => g.2.2)
  if xs0.isEmpty then .error .valueError
  else
    let xsys := shuffle_together xs0 ys0 randJ
    let domain_end := ceilNat (domain_a_percent * (xsys.1.length : ℚ))
    match vstack (xsys.1.take domain_end), vstack (xsys.2.take domain_end),
        vstack (xsys.1.drop domain_end), vstack (xsys.2.drop domain_end) with
    | .ok a_x, .ok a_y, .ok b_x, .ok b_y =>
      match domainSplit a_x a_y permA train_percent,
          domainSplit b_x b_y permB train_percent with
      | .ok sa, .ok sb =>
        .ok ⟨sa.1.1, sa.1.2, sa.2.1, sa.2.2, sb.1.1, sb.1.2, sb.2.1, sb.2.2⟩
      | .error e, _ => .error e
      | _, .error e => .error e
    | .error e, _, _, _ => .error e
    | _, .error e, _, _ => .error e
    | _, _, .error e, _ => .error e
    | _, _, _, .error e => .error e

/-- The loader `load_data_sleep(dir, domain_a_percent, train_percent, seed)`, with the
directory contents given as a file list and the seeded generators abstracted
into the oracles `randJ`, `permA` (seed+1) and `permB` (seed+2). -/
def load_data_sleep (files : List SleepFile)
    (domain_a_percent train_percent : ℚ) (randJ : ℕ → ℕ)
    (permA permB : ℕ → List ℕ) : Except LoadError (SplitData Mat ℕ) :=
  match groupSubjects files with
  | .ok grouped => sleepSplit grouped domain_a_percent train_percent randJ permA permB
  | .error e => .error e

/-! ### The smart-home (HDF5 windowing) loader (`load_data.py` lines 606-659) -/

/-- One `*.hdf5` smart-home file: its stem name, a feature matrix
(examples × features) and a label vector. -/
structure HomeFile where
  stem : String
  x : Mat
  y : List ℚ

/-- The file scan of `load_data_home`: the `if f.stem == A ... elif f.stem == B`
loop; a later match overwrites an earlier one. -/
def scanHome (files : List HomeFile) (A B : String) :
    Option (Mat × List ℚ) × Option (Mat × List ℚ) :=
  files.foldl (fun acc f =>
    if f.stem = A then (some (f.x, f.y), acc.2)
    else if f.stem = B then (acc.1, some (f.x, f.y))
    else acc) (none, none)

/-- The loader `load_data_home(dir, A, B, train_percent, seed, window_size)`: find the two
named domain files, expand every example to a singleton time dimension, window
unless `window_size == 1`, shuffle each domain (oracles `permA` at `seed`,
`permB` at `seed+1`) and split into train/test. -/
def load_data_home (files : List HomeFile) (A B : String) (train_percent : ℚ)
    (permA permB : ℕ → List ℕ) (window_size : ℕ) :
    Except LoadError (SplitData Mat ℚ) :=
  match scanHome files A B with
  | (some (ax0, ay0), some (bx0, by0)) =>
    match (if window_size ≠ 1
          then create_windows (ax0.map (fun e => [e])) ay0 window_size
          else .ok (ax0.map (fun e => [e]), ay0)),
        (if window_size ≠ 1
          then create_windows (bx0.map (fun e => [e])) by0 window_size
          else .ok (bx0.map (fun e => [e]), by0)) with
    | .ok (ax1, ay1), .ok (bx1, by1) =>
      match domainSplit ax1 ay1 permA train_percent,
          domainSplit bx1 by1 permB train_percent with
      | .ok sa, .ok sb =>
        .ok ⟨sa.1.1, sa.1.2, sa.2.1, sa.2.2, sb.1.1, sb.1.2, sb.2.1, sb.2.2⟩
      | .error e, _ => .error e
      | _, .error e => .error e
    | .error e, _ => .error e
    | _, .error e => .error e
  | _ => .error .missingDomainError

/-! ### Model assembly (`model.py`) -/

/-- The `tf.argmax` scan along the last axis: the first index attaining the maximum
(`argmaxGo rest best bestV i` scans `rest` starting at absolute index `i`). -/
def argmaxGo [LinearOrder α] : List α → ℕ → α → ℕ → ℕ
  | [], best, _, _ => best
  | v :: rest, best, bestV, i =>
    if bestV < v then argmaxGo rest i v (i+1) else argmaxGo rest best bestV (i+1)

/-- The `tf.argmax` of a vector (0 on the empty vector, which tf rejects). -/
def argmax [LinearOrder α] : List α → ℕ
  | [] => 0
  | v :: rest => argmaxGo rest 0 v 1

/-- Line 224 of `model.py`: `which_label = tf.argmax(task_classifier, axis=-1)`,
the class the task classifier predicts for each example in the batch. -/
def which_label [LinearOrder α] (task_classifier : List (List α)) : List ℕ :=
  task_classifier.map argmax

/-- Line 226 of `model.py`: `batch_class_weights = tf.gather(class_weights,
which_label)`, the per-example weight for the non-scalar, non-multi-class
branch of the task loss. -/
def batch_class_weights [LinearOrder α] [Zero α]
    (class_weights : List α) (task_classifier : List (List α)) : List α :=
  (which_label task_classifier).map (fun k => class_weights.getD k 0)

/-- Modelled from the spec: the gather the spec contrasts the code against,
selecting each example's weight by its TRUE label (the argmax of the one-hot
row of `y`) instead of the predicted class. -/
def true_label_weights [LinearOrder α] [Zero α]
    (class_weights : List α) (y : List (List α)) : List α :=
  (y.map argmax).map (fun k => class_weights.getD k 0)

/-- A 3-D tensor of reals for the VRNN loss terms. -/
abbrev Tensor3 := List (List (List ℝ))

/-- Elementwise combination of four equally-shaped lists. -/
def zipWith4 (f : α → β → γ → δ → ε) :
    List α → List β → List γ → List δ → List ε
  | a :: as, b :: bs, c :: cs, d :: ds => f a b c d :: zipWith4 f as bs cs ds
  | _, _, _, _ => []

/-- The mean `tf.reduce_mean` of a vector. -/
noncomputable def reduceMean (l : List ℝ) : ℝ := l.sum / (l.length : ℝ)

/-- Column means `tf.reduce_mean(m, axis=0)` of a 2-D slice. -/
noncomputable def meanCols (m : List (List ℝ)) : List ℝ :=
  (List.range (width m)).map (fun j => reduceMean (m.map (fun row => row.getD j 0)))

/-- One summand of the `kl_gaussian` expression (`model.py` lines 421-427). -/
noncomputable def klGaussianEntry (eps pSigma eSigma eMu pMu : ℝ) : ℝ :=
  Real.log (max eps pSigma) - Real.log (max eps eSigma)
    + 0.5 * (eSigma ^ 2 + (eMu - pMu) ^ 2) / max eps (pSigma ^ 2) - 0.5

/-- The `kl_loss` vector: the elementwise KL expression reduced by
`tf.reduce_mean(-, axis=1)` twice, leaving one value per batch element. -/
noncomputable def kl_loss (eps : ℝ)
    (priorSigma encoderSigma encoderMu priorMu : Tensor3) : List ℝ :=
  (zipWith4 (fun m1 m2 m3 m4 =>
      zipWith4 (fun r1 r2 r3 r4 => zipWith4 (klGaussianEntry eps) r1 r2 r3 r4) m1 m2 m3 m4)
    priorSigma encoderSigma encoderMu priorMu).map
    (fun m => reduceMean (meanCols m))

/-- One summand of the `negative_log_likelihood` expression
(`model.py` lines 438-443). -/
noncomputable def likelihoodEntry (eps dMu dSigma xv : ℝ) : ℝ :=
  (dMu - xv) ^ 2 / max eps (dSigma ^ 2) + Real.log (max eps (dSigma ^ 2))

/-- The `likelihood_loss` vector: `0.5 * reduce_mean(reduce_mean(expr, axis=1), axis=1)`,
one value per batch element. -/
noncomputable def likelihood_loss (eps : ℝ) (decoderMu decoderSigma x : Tensor3) :
    List ℝ :=
  (List.zipWith3 (fun m1 m2 m3 =>
      List.zipWith3 (fun r1 r2 r3 => List.zipWith3 (likelihoodEntry eps) r1 r2 r3) m1 m2 m3)
    decoderMu decoderSigma x).map
    (fun m => 0.5 * reduceMean (meanCols m))

/-- Total loss of `build_lstm` (`model.py` lines 366-370):
`total_loss = task_loss`, plus `domain_loss` when `adaptation` is set. -/
def build_lstm_total_loss (task_loss domain_loss : ℝ) (adaptation : Bool) : ℝ :=
  if adaptation then task_loss + domain_loss else task_loss

/-- Total loss of `build_tcn` (`model.py` lines 297-301). -/
def build_tcn_total_loss (task_loss domain_loss : ℝ) (adaptation : Bool) : ℝ :=
  if adaptation then task_loss + domain_loss else task_loss

/-- Total loss of `build_flat` (`model.py` lines 333-337). -/
def build_flat_total_loss (task_loss domain_loss : ℝ) (adaptation : Bool) : ℝ :=
  if adaptation then task_loss + domain_loss else task_loss

/-- Total loss of `build_cnn` (`model.py` lines 515-519). -/
def build_cnn_total_loss (task_loss domain_loss : ℝ) (adaptation : Bool) : ℝ :=
  if adaptation then task_loss + domain_loss else task_loss

/-- Total loss of `build_vrnn` (`model.py` lines 446-450):
`task_loss + reduce_mean(kl_loss) + reduce_mean(likelihood_loss)`, plus
`domain_loss` when `adaptation` is set. -/
noncomputable def build_vrnn_total_loss (task_loss domain_loss : ℝ)
    (adaptation : Bool) (eps : ℝ)
    (priorSigma encoderSigma encoderMu priorMu decoderMu decoderSigma x : Tensor3) : ℝ :=
  let t := task_loss
    + reduceMean (kl_loss eps priorSigma encoderSigma encoderMu priorMu)
    + reduceMean (likelihood_loss eps decoderMu decoderSigma x)
  if adaptation then t + domain_loss else t

/-! ### Statement forms for the loader claims -/

/-- The Domain A output of a loader, as (example, label) pairs. -/
def domainAPairs (r : SplitData X Y) : List (X × Y) :=
  r.train_data_a.zip r.train_labels_a ++ r.test_data_a.zip r.test_labels_a

/-- The Domain B output of a loader, as (example, label) pairs. -/
def domainBPairs (r : SplitData X Y) : List (X × Y) :=
  r.train_data_b.zip r.train_labels_b ++ r.test_data_b.zip r.test_labels_b

/-- Subject-disjointness of a successful `load_data_sleep` run: every
(example, label) pair of each subject lies entirely in Domain A's train/test
union or entirely in Domain B's. -/
def subjectDisjoint (files : List SleepFile) (domain_a_percent train_percent : ℚ)
    (randJ : ℕ → ℕ) (permA permB : ℕ → List ℕ) : Prop :=
  match groupSubjects files,
      load_data_sleep files domain_a_percent train_percent randJ permA permB with
  | .ok grouped, .ok r =>
    ∀ e ∈ grouped,
      (∀ p ∈ e.2.1.zip e.2.2, p ∈ domainAPairs r) ∨
      (∀ p ∈ e.2.1.zip e.2.2, p ∈ domainBPairs r)
  | _, _ => True

/-- The exact-split-size property of one loader result: each domain's train
subset has exactly `ceil(train_percent * n)` elements, `n` being that domain's
total example count. -/
def splitSizesOk (tp : ℚ) (r : SplitData X Y) : Prop :=
  r.train_data_a.length = ceilNat (tp * ((r.train_data_a.length + r.test_data_a.length : ℕ) : ℚ)) ∧
  r.train_labels_a.length = ceilNat (tp * ((r.train_labels_a.length + r.test_labels_a.length : ℕ) : ℚ)) ∧
  r.train_data_b.length = ceilNat (tp * ((r.train_data_b.length + r.test_data_b.length : ℕ) : ℚ)) ∧
  r.train_labels_b.length = ceilNat (tp * ((r.train_labels_b.length + r.test_labels_b.length : ℕ) : ℚ))

/-- Split sizes for a `load_data_sleep` run (vacuous on error). -/
def sleepSplitSizes (files : List SleepFile) (pa tp : ℚ) (randJ : ℕ → ℕ)
    (permA permB : ℕ → List ℕ) : Prop :=
  match load_data_sleep files pa tp randJ permA permB with
  | .ok r => splitSizesOk tp r
  | .error _ => True

/-- Split sizes for a `load_data_home` run (vacuous on error). -/
def homeSplitSizes (files : List HomeFile) (A B : String) (tp : ℚ)
    (permA permB : ℕ → List ℕ) (window_size : ℕ) : Prop :=
  match load_data_home files A B tp permA permB window_size with
  | .ok r => splitSizesOk tp r
  | .error _ => True

/-- The no-windowing property of `load_data_home` at `window_size = 1`: each
domain's combined train/test output has exactly as many examples as the raw
domain file, every example carrying a singleton time dimension — not the
`n - 1` examples the windowing formula would give. -/
def homeNoWindowing (files : List HomeFile) (A B : String) (tp : ℚ)
    (permA permB : ℕ → List ℕ) : Prop :=
  match load_data_home files A B tp permA permB 1, scanHome files A B with
  | .ok r, (some (ax0, _), some (bx0, _)) =>
    (r.train_data_a.length + r.test_data_a.length = ax0.length ∧
      (0 < ax0.length → r.train_data_a.length + r.test_data_a.length ≠ ax0.length - 1) ∧
      ∀ ex ∈ r.train_data_a ++ r.test_data_a, ex.length = 1) ∧
    (r.train_data_b.length + r.test_data_b.length = bx0.length ∧
      (0 < bx0.length → r.train_data_b.length + r.test_data_b.length ≠ bx0.length - 1) ∧
      ∀ ex ∈ r.train_data_b ++ r.test_data_b, ex.length = 1)
  | _, _ => True

/-- Two well-formed demonstration sleep files: each has one stage label and a
5-row complex RF tensor (so 10 stacked feature rows) with the required
`1 * 750` samples per row. -/
def sleepDemoFiles : List SleepFile :=
  [⟨1, [0], List.replicate 5 (List.replicate 750 (0 : ℚ)),
      List.replicate 5 (List.replicate 750 (0 : ℚ))⟩,
   ⟨2, [1], List.replicate 5 (List.replicate 750 (0 : ℚ)),
      List.replicate 5 (List.replicate 750 (0 : ℚ))⟩]

/-- Two demonstration smart-home files with stems `x` and `y`, three
one-feature examples each. -/
def homeDemoFiles : List HomeFile :=
  [⟨"x", [[1], [2], [3]], [5, 6, 7]⟩, ⟨"y", [[4], [8], [2]], [9, 10, 11]⟩]

/-! ### Permutation facts about the shuffles -/

theorem cons_set_perm : ∀ (t : List α) (m : ℕ) (h : m < t.length) (x : α),
    (t[m] :: t.set m x).Perm (x :: t)
  | y :: t, 0, _, x => List.Perm.swap x y t
  | y :: t, m+1, h, x => by
    simp only [List.getElem_cons_succ, List.set]
    have ih := cons_set_perm t m (Nat.lt_of_succ_lt_succ h) x
    refine (List.Perm.swap _ _ _).trans ?_
    exact (ih.cons y).trans (List.Perm.swap x y t)

theorem set_set_perm : ∀ (l : List α) (i j : ℕ) (hi : i < l.length) (hj : j < l.length),
    ((l.set i l[j]).set j l[i]).Perm l
  | x :: t, 0, 0, _, _ => by simp
  | x :: t, 0, j+1, _, hj => by
    simp only [List.getElem_cons_succ, List.getElem_cons_zero, List.set]
    exact cons_set_perm t j (Nat.lt_of_succ_lt_succ hj) x
  | x :: t, i+1, 0, hi, _ => by
    simp only [List.getElem_cons_succ, List.getElem_cons_zero, List.set]
    exact cons_set_perm t i (Nat.lt_of_succ_lt_succ hi) x
  | x :: t, i+1, j+1, hi, hj => by
    simp only [List.getElem_cons_succ, List.set]
    exact (set_set_perm t i j (Nat.lt_of_succ_lt_succ hi) (Nat.lt_of_succ_lt_succ hj)).cons x

theorem swapList_perm (l : List α) (i j : ℕ) : (swapList l i j).Perm l := by
  unfold swapList
  cases hi : l[i]? with
  | none => exact List.Perm.refl l
  | some a =>
    cases hj : l[j]? with
    | none => exact List.Perm.refl l
    | some b =>
      obtain ⟨hi', rfl⟩ := List.getElem?_eq_some_iff.mp hi
      obtain ⟨hj', rfl⟩ := List.getElem?_eq_some_iff.mp hj
      exact set_set_perm l i j hi' hj'

theorem fisherYatesAux_perm (randJ : ℕ → ℕ) :
    ∀ (k : ℕ) (l : List α), (fisherYatesAux randJ k l).Perm l
  | 0, l => List.Perm.refl l
  | k+1, l =>
    (fisherYatesAux_perm randJ k _).trans (swapList_perm l (k+1) (randJ (k+1) % (k+2)))

theorem fisherYates_perm (randJ : ℕ → ℕ) (l : List α) :
    (fisherYates randJ l).Perm l :=
  fisherYatesAux_perm randJ (l.length - 1) l

theorem npFancyIndex_eq_filterMap (l : List α) (p : List ℕ)
    (h : ∀ i ∈ p, i < l.length) :
    npFancyIndex l p = .ok (p.filterMap (fun i => l[i]?)) := by
  induction p with
  | nil => rfl
  | cons i rest ih =>
    have hi : i < l.length := h i (List.mem_cons_self i rest)
    have hv : l[i]? = some l[i] := List.getElem?_eq_getElem hi
    have ih2 := ih (fun j hj => h j (List.mem_cons_of_mem i hj))
    rw [List.filterMap_cons_some hv]
    simp only [npFancyIndex, npIndex, hv, ih2]

theorem filterMap_getElem?_length (l : List α) (p : List ℕ)
    (h : ∀ i ∈ p, i < l.length) :
    (p.filterMap (fun i => l[i]?)).length = p.length := by
  induction p with
  | nil => rfl
  | cons i rest ih =>
    have hi : i < l.length := h i (List.mem_cons_self i rest)
    have hv : l[i]? = some l[i] := List.getElem?_eq_getElem hi
    rw [List.filterMap_cons_some hv, List.length_cons, List.length_cons,
      ih (fun j hj => h j (List.mem_cons_of_mem i hj))]

theorem filterMap_getElem?_range (l : List α) :
    (List.range l.length).filterMap (fun i => l[i]?) = l := by
  induction l with
  | nil => rfl
  | cons x t ih =>
    have h0 : (x :: t)[(0 : ℕ)]? = some x := List.getElem?_cons_zero
    rw [List.length_cons, List.range_succ_eq_map,
      List.filterMap_cons_some h0, List.filterMap_map]
    have hc : ((fun i => (x :: t)[i]?) ∘ Nat.succ) = fun i => t[i]? := by
      funext i
      simp [Function.comp]
    rw [hc, ih]

theorem filterMap_getElem?_perm (l : List α) (p : List ℕ)
    (hp : p.Perm (List.range l.length)) :
    (p.filterMap (fun i => l[i]?)).Perm l := by
  have h := hp.filterMap (fun i => l[i]?)
  rwa [filterMap_getElem?_range] at h

theorem zip_filterMap_getElem? (a : List α) (b : List β) (p : List ℕ)
    (hlen : a.length = b.length) (h : ∀ i ∈ p, i < a.length) :
    (p.filterMap (fun i => a[i]?)).zip (p.filterMap (fun i => b[i]?))
      = p.filterMap (fun i => (a.zip b)[i]?) := by
  induction p with
  | nil => rfl
  | cons i rest ih =>
    have hia : i < a.length := h i (List.mem_cons_self i rest)
    have hib : i < b.length := hlen ▸ hia
    have hiz : i < (a.zip b).length := by
      rw [List.length_zip, hlen, Nat.min_self]; exact hib
    have hva : a[i]? = some a[i] := List.getElem?_eq_getElem hia
    have hvb : b[i]? = some b[i] := List.getElem?_eq_getElem hib
    have hvz : (a.zip b)[i]? = some (a.zip b)[i] := List.getElem?_eq_getElem hiz
    rw [List.filterMap_cons_some hva, List.filterMap_cons_some hvb,
      List.filterMap_cons_some hvz, List.zip_cons_cons,
      ih (fun j hj => h j (List.mem_cons_of_mem i hj)), List.getElem_zip]

theorem shuffle_together_np_spec (a : List α) (b : List β) (perm : ℕ → List ℕ)
    (hlen : a.length = b.length)
    (hp : (perm a.length).Perm (List.range a.length)) :
    ∃ a2 b2, shuffle_together_np a b perm = .ok (a2, b2) ∧
      (a2.zip b2).Perm (a.zip b) ∧
      a2.length = a.length ∧ b2.length = b.length := by
  have hmem : ∀ i ∈ perm a.length, i < a.length := by
    intro i hi
    have := hp.mem_iff.mp hi
    simpa [List.mem_range] using this
  have hmemb : ∀ i ∈ perm a.length, i < b.length := fun i hi => hlen ▸ hmem i hi
  have ha := npFancyIndex_eq_filterMap a (perm a.length) hmem
  have hb := npFancyIndex_eq_filterMap b (perm a.length) hmemb
  have hplen : (perm a.length).length = a.length := by
    simpa using hp.length_eq
  refine ⟨(perm a.length).filterMap (fun i => a[i]?),
    (perm a.length).filterMap (fun i => b[i]?), ?_, ?_, ?_, ?_⟩
  · simp only [shuffle_together_np, ha, hb]
  · rw [zip_filterMap_getElem? a b _ hlen hmem]
    have hzl : (a.zip b).length = a.length := by
      rw [List.length_zip, hlen, Nat.min_self]
    exact filterMap_getElem?_perm (a.zip b) (perm a.length) (hzl ▸ hp)
  · rw [filterMap_getElem?_length a _ hmem, hplen]
  · rw [filterMap_getElem?_length b _ hmemb, hplen, hlen]

/-- C5: `shuffle_together` and `shuffle_together_np` apply one and the same
permutation to both input sequences — the multiset of aligned pairs
`(a[i], b[i])` is preserved by either shuffle. -/
theorem C5_shuffles_preserve_pairs {α β : Type} (a : List α) (b : List β)
    (randJ : ℕ → ℕ) (perm : ℕ → List ℕ) (hlen : a.length = b.length)
    (hp : (perm a.length).Perm (List.range a.length)) :
    ((shuffle_together a b randJ).1.zip (shuffle_together a b randJ).2).Perm (a.zip b) ∧
    ∃ a2 b2, shuffle_together_np a b perm = .ok (a2, b2) ∧
      (a2.zip b2).Perm (a.zip b) := by
  constructor
  · have hfy := fisherYates_perm randJ (a.zip b)
    simpa [shuffle_together, List.unzip_eq_map, List.zip_map',
      List.zip_unzip] using hfy
  · obtain ⟨a2, b2, hok, hperm, -, -⟩ := shuffle_together_np_spec a b perm hlen hp
    exact ⟨a2, b2, hok, hperm⟩

/-! ### One-hot facts -/

theorem argmaxGo_all_not_lt : ∀ (l : List ℚ) (best i : ℕ) (bv : ℚ),
    (∀ v ∈ l, ¬ bv < v) → argmaxGo l best bv i = best
  | [], _, _, _, _ => rfl
  | v :: rest, best, i, bv, h => by
    simp only [argmaxGo, if_neg (h v (List.mem_cons_self v rest))]
    exact argmaxGo_all_not_lt rest best (i+1) bv
      (fun w hw => h w (List.mem_cons_of_mem v hw))

theorem argmaxGo_append_skip : ∀ (l1 l2 : List ℚ) (best i : ℕ) (bv : ℚ),
    (∀ v ∈ l1, ¬ bv < v) →
    argmaxGo (l1 ++ l2) best bv i = argmaxGo l2 best bv (i + l1.length)
  | [], l2, best, i, bv, _ => by simp
  | v :: rest, l2, best, i, bv, h => by
    simp only [List.cons_append, argmaxGo, if_neg (h v (List.mem_cons_self v rest)),
      List.append_eq]
    rw [argmaxGo_append_skip rest l2 best (i+1) bv
      (fun w hw => h w (List.mem_cons_of_mem v hw))]
    simp only [List.length_cons]
    ring_nf

theorem not_lt_of_replicate_zero (v : ℚ) (r : ℕ) (hv : 0 ≤ v) :
    ∀ w ∈ List.replicate r (0 : ℚ), ¬ v < w := by
  intro w hw
  rw [List.eq_of_mem_replicate hw]
  exact not_lt.mpr hv

theorem eyeRow_eq_replicate : ∀ (n k : ℕ), k < n →
    eyeRow n k = List.replicate k 0 ++ 1 :: List.replicate (n - k - 1) 0
  | 0, k, hk => absurd hk (Nat.not_lt_zero k)
  | n+1, 0, _ => by
    simp only [eyeRow, List.range_succ_eq_map, List.map_cons, if_pos rfl,
      List.map_map, List.replicate, List.nil_append, Nat.succ_sub_one]
    congr 1
    rw [List.eq_replicate_iff]
    refine ⟨by simp, ?_⟩
    intro b hb
    obtain ⟨j, -, rfl⟩ := List.mem_map.mp hb
    simp [Function.comp]
  | n+1, k+1, hk => by
    have ih := eyeRow_eq_replicate n k (Nat.lt_of_succ_lt_succ hk)
    simp only [eyeRow, List.range_succ_eq_map, List.map_cons, List.map_map] at ih ⊢
    rw [if_neg (by omega : (0 : ℕ) ≠ k + 1)]
    have hmap : (List.range n).map ((fun j => if j = k + 1 then (1 : ℚ) else 0) ∘ Nat.succ)
        = (List.range n).map (fun j => if j = k then (1 : ℚ) else 0) := by
      refine List.map_congr_left ?_
      intro j _
      simp only [Function.comp]
      by_cases hj : j = k
      · rw [if_pos hj, if_pos (by omega)]
      · rw [if_neg hj, if_neg (by omega)]
    rw [hmap, ih]
    simp [List.replicate_succ]

theorem argmax_eyeRow (n k : ℕ) (hk : k < n) : argmax (eyeRow n k) = k := by
  rw [eyeRow_eq_replicate n k hk]
  cases k with
  | zero =>
    simp only [List.replicate, List.nil_append, argmax]
    exact argmaxGo_all_not_lt _ 0 1 1 (not_lt_of_replicate_zero 1 _ (by norm_num))
  | succ k =>
    simp only [List.replicate_succ, List.cons_append, argmax]
    rw [argmaxGo_append_skip _ _ 0 1 0 (not_lt_of_replicate_zero 0 _ le_rfl)]
    simp only [argmaxGo, if_pos (by norm_num : (0 : ℚ) < 1), List.length_replicate]
    rw [argmaxGo_all_not_lt _ _ _ 1 (not_lt_of_replicate_zero 1 _ (by norm_num))]
    omega

theorem npEyeIndex_of_bounds (n : ℕ) (i : ℤ) (h0 : 0 ≤ i) (h1 : i < (n : ℤ)) :
    npEyeIndex n i = .ok (eyeRow n i.toNat) := by
  rw [npEyeIndex, if_pos ⟨h0, h1⟩]

theorem npEyeRows_spec (n : ℕ) : ∀ (v : List ℤ), (∀ i ∈ v, 0 ≤ i ∧ i < (n : ℤ)) →
    npEyeRows n v = .ok (v.map (fun i => eyeRow n i.toNat))
  | [], _ => rfl
  | i :: rest, h => by
    obtain ⟨h0, h1⟩ := h i (List.mem_cons_self i rest)
    have ih := npEyeRows_spec n rest (fun j hj => h j (List.mem_cons_of_mem i hj))
    simp only [npEyeRows, npEyeIndex_of_bounds n i h0 h1, ih, List.map_cons]

/-- C6: on a label array whose squeezed form stays 2-D with second dimension
`num_classes`, `one_hot` passes `y` through unchanged (the float cast is the
identity over exact rationals); on a 1-D index vector with `index_one = True`
whose entries lie in the defined range `[1, num_classes]`, it produces a
one-hot matrix whose row `j` has argmax `v[j] - 1`. -/
theorem C6_one_hot_roundtrip (y2 : Mat) (numClasses : ℕ) (indexOne : Bool)
    (v : List ℤ)
    (h1 : y2.length ≠ 1) (h2 : width y2 ≠ 1) (h3 : width y2 = numClasses)
    (hv : ∀ i ∈ v, 1 ≤ i ∧ i ≤ (numClasses : ℤ)) :
    one_hot_y_2d y2 numClasses indexOne = .ok y2 ∧
    ∃ m, one_hot_y_1d v numClasses true = .ok m ∧
      m.length = v.length ∧
      ∀ j, j < v.length → argmax (m.getD j []) = (v.getD j 0 - 1).toNat := by
  constructor
  · rw [one_hot_y_2d, if_neg (by tauto), if_pos h3]
  · have hb : ∀ i ∈ v.map (fun w => w - 1), 0 ≤ i ∧ i < (numClasses : ℤ) := by
      intro i hi
      obtain ⟨w, hw, rfl⟩ := List.mem_map.mp hi
      have := hv w hw
      omega
    refine ⟨(v.map (fun w => w - 1)).map (fun i => eyeRow numClasses i.toNat),
      ?_, by simp, ?_⟩
    · rw [one_hot_y_1d, if_pos rfl]
      exact npEyeRows_spec numClasses _ hb
    · intro j hj
      have hjm : j < (v.map (fun w => w - 1)).length := by simpa using hj
      have hrow : ((v.map (fun w => w - 1)).map (fun i => eyeRow numClasses i.toNat)).getD j []
          = eyeRow numClasses (v.getD j 0 - 1).toNat := by
        rw [List.getD_eq_getElem?_getD, List.getElem?_map,
          List.getElem?_eq_getElem hjm, List.getD_eq_getElem?_getD,
          List.getElem?_eq_getElem hj]
        simp
      rw [hrow]
      refine argmax_eyeRow numClasses _ ?_
      have hmem : v.getD j 0 ∈ v := by
        rw [List.getD_eq_getElem?_getD, List.getElem?_eq_getElem hj]
        exact List.getElem_mem hj
      have := hv _ hmem
      omega

/-- Witness for C6: a 3×2 already-one-hot label matrix passes through, and the
1-indexed vector `[1, 2]` one-hot encodes with argmaxes `0` and `1`. -/
theorem C6_one_hot_roundtrip_witness :
    one_hot_y_2d [[1, 0], [0, 1], [1, 0]] 2 false = .ok [[1, 0], [0, 1], [1, 0]] ∧
    ∃ m, one_hot_y_1d [1, 2] 2 true = .ok m ∧
      m.length = ([1, 2] : List ℤ).length ∧
      ∀ j, j < ([1, 2] : List ℤ).length →
        argmax (m.getD j []) = (([1, 2] : List ℤ).getD j 0 - 1).toNat :=
  C6_one_hot_roundtrip [[1, 0], [0, 1], [1, 0]] 2 false [1, 2]
    (by decide) (by decide) (by decide) (by decide)

/-! ### Windowing facts -/

theorem getD_map_range (n : ℕ) (f : ℕ → α) (i : ℕ) (h : i < n) (d : α) :
    ((List.range n).map f).getD i d = f i := by
  rw [List.getD_eq_getElem?_getD, List.getElem?_map, List.getElem?_range h]
  rfl

theorem create_windows_spec (x : List Mat) (y : List ℚ) (ws : ℕ)
    (h : ws < y.length) :
    create_windows x y ws = .ok (
      (List.range (y.length - ws)).map (fun i => ((x.drop i).take ws).flatten),
      (List.range (y.length - ws)).map (fun i => y.getD (i + ws - 1) 0)) := by
  have hne : ((List.range (y.length - ws)).map
      (fun i => ((x.drop i).take ws).flatten)).isEmpty = false := by
    rw [Bool.eq_false_iff]
    intro hc
    rw [List.isEmpty_iff, List.map_eq_nil_iff, List.range_eq_nil] at hc
    omega
  simp [create_windows, hne]

/-- C3 counterexample: at `n = window_size = 1` the claim demands
`n - window_size = 0` windows, but the loop produces none and the final
`np.vstack` of the empty window list raises a `ValueError` instead of
returning. -/
theorem C3_counterexample :
    create_windows [[[(0 : ℚ)]]] [(0 : ℚ)] 1 = .error .valueError := rfl

/-- C3 (amended): for `1 ≤ window_size < n`, `create_windows` on paired inputs
of length `n` returns exactly `n - window_size` windows, window `i` carrying
label `y[i + window_size - 1]` and the concatenation of raw samples
`i, ..., i + window_size - 1`; at `window_size = n` the call instead fails
with a `ValueError` (empty stack). -/
theorem C3_windowing_amended (x : List Mat) (y : List ℚ) (ws : ℕ)
    (hlen : x.length = y.length) (h1 : 1 ≤ ws) (h2 : ws < y.length) :
    ∃ wx wy, create_windows x y ws = .ok (wx, wy) ∧
      wx.length = y.length - ws ∧ wy.length = y.length - ws ∧
      (∀ i, i < y.length - ws → wy.getD i 0 = y.getD (i + ws - 1) 0) ∧
      (∀ i, i < y.length - ws → wx.getD i [] = ((x.drop i).take ws).flatten) := by
  refine ⟨_, _, create_windows_spec x y ws h2, by simp, by simp, ?_, ?_⟩
  · intro i hi
    exact getD_map_range _ _ i hi 0
  · intro i hi
    exact getD_map_range _ _ i hi []

/-- Witness for C3 at the spec's end-to-end example: 10 raw samples with one
feature each and `window_size = 5` give 5 windows, window 0 covering raw
samples 0-4 with label `y[4]`. -/
theorem C3_windowing_amended_witness :
    ∃ wx wy, create_windows
        [[[(0 : ℚ)]], [[1]], [[2]], [[3]], [[4]], [[5]], [[6]], [[7]], [[8]], [[9]]]
        [(0 : ℚ), 1, 2, 3, 4, 5, 6, 7, 8, 9] 5 = .ok (wx, wy) ∧
      wx.length = ([(0 : ℚ), 1, 2, 3, 4, 5, 6, 7, 8, 9] : List ℚ).length - 5 ∧
      wy.length = ([(0 : ℚ), 1, 2, 3, 4, 5, 6, 7, 8, 9] : List ℚ).length - 5 ∧
      (∀ i, i < ([(0 : ℚ), 1, 2, 3, 4, 5, 6, 7, 8, 9] : List ℚ).length - 5 →
        wy.getD i 0 = ([(0 : ℚ), 1, 2, 3, 4, 5, 6, 7, 8, 9] : List ℚ).getD (i + 5 - 1) 0) ∧
      (∀ i, i < ([(0 : ℚ), 1, 2, 3, 4, 5, 6, 7, 8, 9] : List ℚ).length - 5 →
        wx.getD i [] = ((([[[(0 : ℚ)]], [[1]], [[2]], [[3]], [[4]], [[5]], [[6]], [[7]],
          [[8]], [[9]]] : List Mat).drop i).take 5).flatten) :=
  C3_windowing_amended
    [[[(0 : ℚ)]], [[1]], [[2]], [[3]], [[4]], [[5]], [[6]], [[7]], [[8]], [[9]]]
    [(0 : ℚ), 1, 2, 3, 4, 5, 6, 7, 8, 9] 5 (by decide) (by decide) (by decide)

/-- C4 counterexample: on 2 raw samples with `window_size = 1` the claim
demands a window at every start `i` with `i + 1 ≤ 2`, i.e.
`2 - 1 + 1 = 2` windows, but the code emits exactly one window. -/
theorem C4_counterexample :
    create_windows [[[(0 : ℚ)]], [[(1 : ℚ)]]] [(0 : ℚ), 1] 1
        = .ok ([[[(0 : ℚ)]]], [(0 : ℚ)]) ∧
      ([[[(0 : ℚ)]]] : List Mat).length ≠ 2 - 1 + 1 :=
  ⟨rfl, by decide⟩

/-- C4 (amended): windows are emitted exactly for the start positions `i` with
`i + window_size ≤ n - 1`; the final `window_size` raw samples (not
`window_size - 1`) cannot start a window, so `n - window_size` windows are
produced (not `n - window_size + 1`). -/
theorem C4_window_starts_amended (x : List Mat) (y : List ℚ) (ws : ℕ)
    (hlen : x.length = y.length) (h1 : 1 ≤ ws) (h2 : ws < y.length) :
    ∃ wx wy, create_windows x y ws = .ok (wx, wy) ∧
      wx.length = y.length - ws ∧
      ∀ i, i < wx.length ↔ i + ws + 1 ≤ y.length := by
  refine ⟨_, _, create_windows_spec x y ws h2, by simp, ?_⟩
  intro i
  simp only [List.length_map, List.length_range]
  omega

/-- Witness for C4: 4 raw samples, `window_size = 2`: starts 0 and 1 only. -/
theorem C4_window_starts_amended_witness :
    ∃ wx wy, create_windows [[[(0 : ℚ)]], [[1]], [[2]], [[3]]]
        [(0 : ℚ), 1, 2, 3] 2 = .ok (wx, wy) ∧
      wx.length = ([(0 : ℚ), 1, 2, 3] : List ℚ).length - 2 ∧
      ∀ i, i < wx.length ↔ i + 2 + 1 ≤ ([(0 : ℚ), 1, 2, 3] : List ℚ).length :=
  C4_window_starts_amended [[[(0 : ℚ)]], [[1]], [[2]], [[3]]]
    [(0 : ℚ), 1, 2, 3] 2 (by decide) (by decide) (by decide)

/-! ### Model-assembly facts -/

/-- C7 counterexample: `build_vrnn` with `adaptation = False` does NOT return
the task loss alone — at task loss 0 with unit sigmas, unit encoder mean and
zero prior mean (a single batch element, time step and latent dimension), the
KL term contributes `1/2`, so the total loss is `1/2 ≠ 0`. -/
theorem C7_counterexample :
    build_vrnn_total_loss 0 0 false (1 / 10 ^ 9)
      [[[1]]] [[[1]]] [[[1]]] [[[0]]] [[[0]]] [[[1]]] [[[0]]] ≠ (0 : ℝ) := by
  have hmax1 : max ((1 : ℝ) / 10 ^ 9) 1 = 1 := max_eq_right (by norm_num)
  have hmax1sq : max ((1 : ℝ) / 10 ^ 9) ((1 : ℝ) ^ 2) = 1 := by
    rw [one_pow]
    exact hmax1
  simp only [build_vrnn_total_loss, kl_loss, likelihood_loss, zipWith4,
    List.zipWith3, klGaussianEntry, likelihoodEntry, reduceMean, meanCols,
    width, hmax1, hmax1sq, Real.log_one, List.map_cons, List.map_nil,
    List.headD_cons, List.length_cons, List.length_nil, List.range_succ,
    List.range_zero, List.getD_cons_zero, Bool.false_eq_true, if_false]
  norm_num

/-- C7 (amended): with `adaptation = False`, the total loss of `build_lstm`,
`build_tcn`, `build_flat` and `build_cnn` equals the task loss alone, while
`build_vrnn` returns the task loss plus the KL and reconstruction terms; in
every variant the total is independent of the domain loss. -/
theorem C7_total_loss_amended (task_loss domain_loss : ℝ) (eps : ℝ)
    (pS eS eM pM dM dS x : Tensor3) :
    build_lstm_total_loss task_loss domain_loss false = task_loss ∧
    build_tcn_total_loss task_loss domain_loss false = task_loss ∧
    build_flat_total_loss task_loss domain_loss false = task_loss ∧
    build_cnn_total_loss task_loss domain_loss false = task_loss ∧
    build_vrnn_total_loss task_loss domain_loss false eps pS eS eM pM dM dS x
      = task_loss + reduceMean (kl_loss eps pS eS eM pM)
        + reduceMean (likelihood_loss eps dM dS x) ∧
    ∀ d2 : ℝ,
      build_lstm_total_loss task_loss domain_loss false
        = build_lstm_total_loss task_loss d2 false ∧
      build_tcn_total_loss task_loss domain_loss false
        = build_tcn_total_loss task_loss d2 false ∧
      build_flat_total_loss task_loss domain_loss false
        = build_flat_total_loss task_loss d2 false ∧
      build_cnn_total_loss task_loss domain_loss false
        = build_cnn_total_loss task_loss d2 false ∧
      build_vrnn_total_loss task_loss domain_loss false eps pS eS eM pM dM dS x
        = build_vrnn_total_loss task_loss d2 false eps pS eS eM pM dM dS x :=
  ⟨rfl, rfl, rfl, rfl, rfl, fun _ => ⟨rfl, rfl, rfl, rfl, rfl⟩⟩

/-- C8: in the non-scalar, non-multi-class branch of `build_model`, the weight
applied to batch example `i` is `class_weights[argmax(task_classifier[i])]` —
gathered by the PREDICTED class — and this differs from gathering by the true
label: with weights `[2, 3]`, raw output `[[5, 1]]` (predicting class 0) and
true one-hot label `[[0, 1]]` (class 1), the code selects `[2]` where a
true-label gather would select `[3]`. -/
theorem C8_predicted_weight_gather (class_weights : List ℚ)
    (task_classifier : List (List ℚ)) :
    (∀ i, i < task_classifier.length →
      (batch_class_weights class_weights task_classifier).getD i 0
        = class_weights.getD (argmax (task_classifier.getD i [])) 0) ∧
    batch_class_weights [(2 : ℚ), 3] [[(5 : ℚ), 1]]
      ≠ true_label_weights [(2 : ℚ), 3] [[(0 : ℚ), 1]] := by
  constructor
  · intro i hi
    have ht : task_classifier.getD i [] = task_classifier[i] := by
      rw [List.getD_eq_getElem?_getD, List.getElem?_eq_getElem hi]
      rfl
    rw [ht, batch_class_weights, which_label, List.getD_eq_getElem?_getD,
      List.getElem?_map, List.getElem?_map, List.getElem?_eq_getElem hi]
    rfl
  · decide

/-- Witness for C8: weights `[5, 7]` and a two-example batch predicting
classes 1 and 0. -/
theorem C8_predicted_weight_gather_witness :
    (∀ i, i < ([[(1 : ℚ), 9], [(4 : ℚ), 2]] : List (List ℚ)).length →
      (batch_class_weights [(5 : ℚ), 7] [[(1 : ℚ), 9], [(4 : ℚ), 2]]).getD i 0
        = ([(5 : ℚ), 7] : List ℚ).getD
            (argmax (([[(1 : ℚ), 9], [(4 : ℚ), 2]] : List (List ℚ)).getD i [])) 0) ∧
    batch_class_weights [(2 : ℚ), 3] [[(5 : ℚ), 1]]
      ≠ true_label_weights [(2 : ℚ), 3] [[(0 : ℚ), 1]] :=
  C8_predicted_weight_gather [(5 : ℚ), 7] [[(1 : ℚ), 9], [(4 : ℚ), 2]]

/-- Witness for C5 at concrete inputs: two paired lists of length 3, a
nontrivial draw oracle and the reversing permutation. -/
theorem C5_shuffles_preserve_pairs_witness :
    (((shuffle_together [(1 : ℚ), 2, 3] [(10 : ℚ), 20, 30] (fun i => i + 1)).1.zip
        (shuffle_together [(1 : ℚ), 2, 3] [(10 : ℚ), 20, 30] (fun i => i + 1)).2).Perm
      ([(1 : ℚ), 2, 3].zip [(10 : ℚ), 20, 30])) ∧
    ∃ a2 b2, shuffle_together_np [(1 : ℚ), 2, 3] [(10 : ℚ), 20, 30]
        (fun _ => [2, 0, 1]) = .ok (a2, b2) ∧
      (a2.zip b2).Perm ([(1 : ℚ), 2, 3].zip [(10 : ℚ), 20, 30]) :=
  C5_shuffles_preserve_pairs [(1 : ℚ), 2, 3] [(10 : ℚ), 20, 30]
    (fun i => i + 1) (fun _ => [2, 0, 1]) (by decide) (by decide)

/-! ### Inversion lemmas for the loader pipeline -/

theorem npIndex_ok (l : List α) (i : ℕ) (v : α) (h : npIndex l i = .ok v) :
    l[i]? = some v := by
  rw [npIndex] at h
  cases hv : l[i]? with
  | none => rw [hv] at h; exact Except.noConfusion h
  | some w =>
    rw [hv] at h
    injection h with h
    rw [h]

theorem npFancyIndex_ok_length (l : List α) :
    ∀ (p : List ℕ) (l2 : List α), npFancyIndex l p = .ok l2 → l2.length = p.length
  | [], l2, h => by
    injection h with h
    subst h
    rfl
  | i :: rest, l2, h => by
    rw [npFancyIndex] at h
    cases hv : npIndex l i with
    | error e => simp only [hv] at h; exact Except.noConfusion h
    | ok v =>
      cases hrest : npFancyIndex l rest with
      | error e => simp only [hv, hrest] at h; exact Except.noConfusion h
      | ok vs =>
        simp only [hv, hrest] at h
        injection h with h
        rw [← h, List.length_cons, List.length_cons,
          npFancyIndex_ok_length l rest vs hrest]

theorem npFancyIndex_ok_mem (l : List α) :
    ∀ (p : List ℕ) (l2 : List α), npFancyIndex l p = .ok l2 → ∀ v ∈ l2, v ∈ l
  | [], l2, h => by
    injection h with h
    subst h
    intro v hv
    exact absurd hv (List.not_mem_nil v)
  | i :: rest, l2, h => by
    rw [npFancyIndex] at h
    cases hv : npIndex l i with
    | error e => simp only [hv] at h; exact Except.noConfusion h
    | ok v =>
      cases hrest : npFancyIndex l rest with
      | error e => simp only [hv, hrest] at h; exact Except.noConfusion h
      | ok vs =>
        simp only [hv, hrest] at h
        injection h with h
        subst h
        intro w hw
        rcases List.mem_cons.mp hw with rfl | hw2
        · exact List.getElem?_mem (npIndex_ok l i w hv)
        · exact npFancyIndex_ok_mem l rest vs hrest w hw2

theorem shuffle_together_np_ok_inv (a : List α) (b : List β) (perm : ℕ → List ℕ)
    (a2 : List α) (b2 : List β)
    (h : shuffle_together_np a b perm = .ok (a2, b2)) :
    a2.length = (perm a.length).length ∧ b2.length = (perm a.length).length ∧
    (∀ v ∈ a2, v ∈ a) ∧ (∀ v ∈ b2, v ∈ b) := by
  rw [shuffle_together_np] at h
  cases ha : npFancyIndex a (perm a.length) with
  | error e => simp only [ha] at h; exact Except.noConfusion h
  | ok x =>
    cases hb : npFancyIndex b (perm a.length) with
    | error e => simp only [ha, hb] at h; exact Except.noConfusion h
    | ok y =>
      simp only [ha, hb] at h
      injection h with h
      obtain ⟨rfl, rfl⟩ := Prod.mk.injEq .. |>.mp h
      exact ⟨npFancyIndex_ok_length a _ _ ha, npFancyIndex_ok_length b _ _ hb,
        npFancyIndex_ok_mem a _ _ ha, npFancyIndex_ok_mem b _ _ hb⟩

theorem vstack_ok (ls : List (List α)) (v : List α) (h : vstack ls = .ok v) :
    v = ls.flatten := by
  rw [vstack] at h
  by_cases he : ls.isEmpty = true
  · rw [if_pos he] at h; exact Except.noConfusion h
  · rw [if_neg he] at h
    injection h with h
    exact h.symm

theorem domainSplit_ok_inv (ax : List X) (ay : List Y) (perm : ℕ → List ℕ)
    (tp : ℚ) (sa : (List X × List Y) × (List X × List Y))
    (h : domainSplit ax ay perm tp = .ok sa) :
    ∃ x2 y2, shuffle_together_np ax ay perm = .ok (x2, y2) ∧
      sa = splitTrainTest x2 y2 tp := by
  rw [domainSplit] at h
  cases hs : shuffle_together_np ax ay perm with
  | error e => rw [hs] at h; exact Except.noConfusion h
  | ok p =>
    obtain ⟨x2, y2⟩ := p
    simp only [hs] at h
    injection h with h
    exact ⟨x2, y2, rfl, h.symm⟩

/-! ### The fractional split sizes -/

theorem ceilNat_le_of_le_one (tp : ℚ) (n : ℕ) (htp : tp ≤ 1) :
    ceilNat (tp * (n : ℚ)) ≤ n := by
  rw [ceilNat]
  have h1 : tp * (n : ℚ) ≤ (n : ℚ) := by
    calc tp * (n : ℚ) ≤ 1 * (n : ℚ) :=
      mul_le_mul_of_nonneg_right htp (by positivity)
    _ = (n : ℚ) := one_mul _
  have h2 : Int.ceil (tp * (n : ℚ)) ≤ (n : ℤ) := by
    calc Int.ceil (tp * (n : ℚ)) ≤ Int.ceil ((n : ℚ)) := Int.ceil_le_ceil h1
    _ = (n : ℤ) := Int.ceil_natCast n
  omega

theorem splitTrainTest_sizes (ax : List X) (ay : List Y) (tp : ℚ)
    (hlen : ax.length = ay.length) (htp : tp ≤ 1) :
    (splitTrainTest ax ay tp).1.1.length
      = ceilNat (tp * (((splitTrainTest ax ay tp).1.1.length
          + (splitTrainTest ax ay tp).2.1.length : ℕ) : ℚ)) ∧
    (splitTrainTest ax ay tp).1.2.length
      = ceilNat (tp * (((splitTrainTest ax ay tp).1.2.length
          + (splitTrainTest ax ay tp).2.2.length : ℕ) : ℚ)) := by
  have he := ceilNat_le_of_le_one tp ay.length htp
  simp only [splitTrainTest, List.length_take, List.length_drop]
  constructor
  · have hmin : min (ceilNat (tp * (ay.length : ℚ))) ax.length
        = ceilNat (tp * (ay.length : ℚ)) := by omega
    rw [hmin]
    have hsum : ceilNat (tp * (ay.length : ℚ))
        + (ax.length - ceilNat (tp * (ay.length : ℚ))) = ay.length := by omega
    rw [hsum]
  · have hmin : min (ceilNat (tp * (ay.length : ℚ))) ay.length
        = ceilNat (tp * (ay.length : ℚ)) := by omega
    rw [hmin]
    have hsum : ceilNat (tp * (ay.length : ℚ))
        + (ay.length - ceilNat (tp * (ay.length : ℚ))) = ay.length := by omega
    rw [hsum]

theorem domainSplit_sizes (ax : List X) (ay : List Y) (perm : ℕ → List ℕ)
    (tp : ℚ) (sa : (List X × List Y) × (List X × List Y)) (htp : tp ≤ 1)
    (h : domainSplit ax ay perm tp = .ok sa) :
    sa.1.1.length = ceilNat (tp * ((sa.1.1.length + sa.2.1.length : ℕ) : ℚ)) ∧
    sa.1.2.length = ceilNat (tp * ((sa.1.2.length + sa.2.2.length : ℕ) : ℚ)) := by
  obtain ⟨x2, y2, hs, rfl⟩ := domainSplit_ok_inv ax ay perm tp sa h
  obtain ⟨hx, hy, -, -⟩ := shuffle_together_np_ok_inv ax ay perm x2 y2 hs
  exact splitTrainTest_sizes x2 y2 tp (hx.trans hy.symm) htp

/-! ### Sleep-loader facts -/

theorem processFile_badShape (f : SleepFile) (h : badShape f) :
    processFile f = .error .shapeError := by
  rw [badShape] at h
  simp only [processFile]
  rw [if_pos h]

theorem processFile_ok_or_shape (f : SleepFile) :
    (∃ r, processFile f = .ok r) ∨ processFile f = .error .shapeError := by
  simp only [processFile]
  by_cases h1 : f.stage.length * 750 ≠ ((f.rfRe ++ f.rfIm).headD []).length
  · rw [if_pos h1]
    exact .inr rfl
  · rw [if_neg h1]
    by_cases h2 : (f.rfRe ++ f.rfIm).length ≠ 10
    · rw [if_pos h2]
      exact .inr rfl
    · rw [if_neg h2]
      exact .inl ⟨_, rfl⟩

theorem groupFold_error_of_badShape :
    ∀ (files : List SleepFile) (acc : List (ℕ × List Mat × List ℕ)),
    (∃ f ∈ files, badShape f) → groupFold acc files = .error .shapeError
  | [], _, h => absurd h (by simp)
  | f :: rest, acc, h => by
    rcases processFile_ok_or_shape f with ⟨r, hr⟩ | hr
    · simp only [groupFold, hr]
      obtain ⟨g, hg, hbad⟩ := h
      rcases List.mem_cons.mp hg with rfl | hgrest
      · rw [processFile_badShape g hbad] at hr
        exact Except.noConfusion hr
      · exact groupFold_error_of_badShape rest _ ⟨g, hgrest, hbad⟩
    · simp only [groupFold, hr]

/-- C9: the sleep loader fails with a `ShapeError`, surfaced to the caller
with no partial recovery, whenever any input file has
`label_count * 750 ≠ sample_count`. -/
theorem C9_shape_error (files : List SleepFile) (pa tp : ℚ) (randJ : ℕ → ℕ)
    (permA permB : ℕ → List ℕ) (h : ∃ f ∈ files, badShape f) :
    load_data_sleep files pa tp randJ permA permB = .error .shapeError := by
  have hg : groupSubjects files = .error .shapeError := by
    rw [groupSubjects]
    exact groupFold_error_of_badShape files [] h
  rw [load_data_sleep, hg]

/-- Witness for C9: a single file whose label count (1) times 750 differs
from its 3-sample RF tensor. -/
theorem C9_shape_error_witness :
    load_data_sleep [⟨0, [0], [[1, 2, 3]], [[4, 5, 6]]⟩] (7/10) (7/10)
      (fun i => i) (fun n => List.range n) (fun n => List.range n)
      = .error .shapeError :=
  C9_shape_error _ _ _ _ _ _
    ⟨⟨0, [0], [[1, 2, 3]], [[4, 5, 6]]⟩, List.mem_cons_self _ _,
      by unfold badShape; decide⟩

/-! ### Split sizes of both loaders (C2) -/

theorem homeSplitSizes_holds (files : List HomeFile) (A B : String) (tp : ℚ)
    (permA permB : ℕ → List ℕ) (ws : ℕ) (htp : tp ≤ 1) :
    homeSplitSizes files A B tp permA permB ws := by
  rw [homeSplitSizes]
  cases hres : load_data_home files A B tp permA permB ws with
  | error e => trivial
  | ok r =>
    rw [load_data_home] at hres
    rcases hsc : scanHome files A B with ⟨oa, ob⟩
    rw [hsc] at hres
    rcases oa with - | ⟨ax0, ay0⟩
    · simp at hres
    rcases ob with - | ⟨bx0, by0⟩
    · simp at hres
    cases hw1 : (if ws ≠ 1 then create_windows (ax0.map (fun e => [e])) ay0 ws
        else .ok (ax0.map (fun e => [e]), ay0)) with
    | error e1 => simp only [hw1] at hres; exact Except.noConfusion hres
    | ok p1 =>
      obtain ⟨ax1, ay1⟩ := p1
      cases hw2 : (if ws ≠ 1 then create_windows (bx0.map (fun e => [e])) by0 ws
          else .ok (bx0.map (fun e => [e]), by0)) with
      | error e2 => simp only [hw1, hw2] at hres; exact Except.noConfusion hres
      | ok p2 =>
        obtain ⟨bx1, by1⟩ := p2
        simp only [hw1, hw2] at hres
        cases hda : domainSplit ax1 ay1 permA tp with
        | error e => simp only [hda] at hres; exact Except.noConfusion hres
        | ok sa =>
          cases hdb : domainSplit bx1 by1 permB tp with
          | error e => simp only [hda, hdb] at hres; exact Except.noConfusion hres
          | ok sb =>
            simp only [hda, hdb] at hres
            injection hres with hres
            subst hres
            have hA := domainSplit_sizes ax1 ay1 permA tp sa htp hda
            have hB := domainSplit_sizes bx1 by1 permB tp sb htp hdb
            exact ⟨hA.1, hA.2, hB.1, hB.2⟩

theorem sleepSplitSizes_holds (files : List SleepFile) (pa tp : ℚ)
    (randJ : ℕ → ℕ) (permA permB : ℕ → List ℕ) (htp : tp ≤ 1) :
    sleepSplitSizes files pa tp randJ permA permB := by
  rw [sleepSplitSizes]
  cases hres : load_data_sleep files pa tp randJ permA permB with
  | error e => trivial
  | ok r =>
    rw [load_data_sleep] at hres
    cases hg : groupSubjects files with
    | error e => simp only [hg] at hres; exact Except.noConfusion hres
    | ok grouped =>
      simp only [hg] at hres
      simp only [sleepSplit] at hres
      by_cases hemp : (grouped.map (fun g => g.2.1)).isEmpty = true
      · rw [if_pos hemp] at hres
        exact Except.noConfusion hres
      · rw [if_neg hemp] at hres
        set xsys := shuffle_together (grouped.map (fun g => g.2.1))
          (grouped.map (fun g => g.2.2)) randJ with hxsys
        set de := ceilNat (pa * (xsys.1.length : ℚ)) with hde
        cases hv1 : vstack (xsys.1.take de) with
        | error e => simp only [hv1] at hres; exact Except.noConfusion hres
        | ok a_x =>
          cases hv2 : vstack (xsys.2.take de) with
          | error e => simp only [hv1, hv2] at hres; exact Except.noConfusion hres
          | ok a_y =>
            cases hv3 : vstack (xsys.1.drop de) with
            | error e => simp only [hv1, hv2, hv3] at hres; exact Except.noConfusion hres
            | ok b_x =>
              cases hv4 : vstack (xsys.2.drop de) with
              | error e =>
                simp only [hv1, hv2, hv3, hv4] at hres
                exact Except.noConfusion hres
              | ok b_y =>
                simp only [hv1, hv2, hv3, hv4] at hres
                cases hda : domainSplit a_x a_y permA tp with
                | error e => simp only [hda] at hres; exact Except.noConfusion hres
                | ok sa =>
                  cases hdb : domainSplit b_x b_y permB tp with
                  | error e => simp only [hda, hdb] at hres; exact Except.noConfusion hres
                  | ok sb =>
                    simp only [hda, hdb] at hres
                    injection hres with hres
                    subst hres
                    have hA := domainSplit_sizes a_x a_y permA tp sa htp hda
                    have hB := domainSplit_sizes b_x b_y permB tp sb htp hdb
                    exact ⟨hA.1, hA.2, hB.1, hB.2⟩

/-- C2: for every domain either loader produces, the train subset has exactly
`ceil(train_percent * n)` elements, `n` being that domain's example count
(train plus test), for every `train_percent` in `(0, 1]`. -/
theorem C2_split_sizes (sfiles : List SleepFile) (hfiles : List HomeFile)
    (A B : String) (pa tp : ℚ) (randJ : ℕ → ℕ)
    (permA permB permC permD : ℕ → List ℕ) (ws : ℕ)
    (htp0 : 0 < tp) (htp1 : tp ≤ 1) :
    sleepSplitSizes sfiles pa tp randJ permA permB ∧
    homeSplitSizes hfiles A B tp permC permD ws :=
  ⟨sleepSplitSizes_holds sfiles pa tp randJ permA permB htp1,
   homeSplitSizes_holds hfiles A B tp permC permD ws htp1⟩

set_option maxRecDepth 8000 in
/-- Witness for C2 at `train_percent = 7/10`, on file lists for which both
loaders genuinely succeed: two well-formed subject files cut at
`domain_a_percent = 1/2`, and home files for both stems windowed at
`window_size = 2`. -/
theorem C2_split_sizes_witness :
    (sleepSplitSizes sleepDemoFiles (1/2) (7/10) (fun i => i)
        (fun n => List.range n) (fun n => List.range n) ∧
      homeSplitSizes homeDemoFiles "x" "y" (7/10)
        (fun n => List.range n) (fun n => List.range n) 2) ∧
    (load_data_sleep sleepDemoFiles (1/2) (7/10) (fun i => i)
      (fun n => List.range n) (fun n => List.range n)).isOk = true ∧
    (load_data_home homeDemoFiles "x" "y" (7/10)
      (fun n => List.range n) (fun n => List.range n) 2).isOk = true :=
  ⟨C2_split_sizes sleepDemoFiles homeDemoFiles "x" "y" (1/2) (7/10)
      (fun i => i) (fun n => List.range n) (fun n => List.range n)
      (fun n => List.range n) (fun n => List.range n) 2
      (by norm_num) (by norm_num),
    by with_unfolding_all rfl, by with_unfolding_all rfl⟩

/-! ### The no-windowing path of the home loader (C10) -/

theorem domainSplit_singleton (ax0 : Mat) (ay : List ℚ) (perm : ℕ → List ℕ)
    (tp : ℚ) (sa : (List Mat × List ℚ) × (List Mat × List ℚ))
    (hp : ∀ n, (perm n).Perm (List.range n))
    (h : domainSplit (ax0.map (fun e => [e])) ay perm tp = .ok sa) :
    sa.1.1.length + sa.2.1.length = ax0.length ∧
    (∀ ex ∈ sa.1.1, ex.length = 1) ∧ (∀ ex ∈ sa.2.1, ex.length = 1) := by
  obtain ⟨x2, y2, hs, rfl⟩ := domainSplit_ok_inv _ ay perm tp sa h
  obtain ⟨hx, -, hmem, -⟩ := shuffle_together_np_ok_inv _ ay perm x2 y2 hs
  have hxlen : x2.length = ax0.length := by
    rw [hx, (hp _).length_eq, List.length_range, List.length_map]
  refine ⟨?_, ?_, ?_⟩
  · simp only [splitTrainTest, List.length_take, List.length_drop]
    omega
  · intro ex hex
    simp only [splitTrainTest] at hex
    obtain ⟨w, -, rfl⟩ := List.mem_map.mp (hmem ex (List.take_subset _ _ hex))
    rfl
  · intro ex hex
    simp only [splitTrainTest] at hex
    obtain ⟨w, -, rfl⟩ := List.mem_map.mp (hmem ex (List.drop_subset _ _ hex))
    rfl

/-- C10: at `window_size = 1` the home loader applies no windowing: each
domain's combined train/test output has exactly as many examples as the raw
domain file (not the `n - 1` the windowing formula would give), and every
example carries a singleton time dimension. -/
theorem C10_home_no_windowing (files : List HomeFile) (A B : String) (tp : ℚ)
    (permA permB : ℕ → List ℕ)
    (hA : ∀ n, (permA n).Perm (List.range n))
    (hB : ∀ n, (permB n).Perm (List.range n)) :
    homeNoWindowing files A B tp permA permB := by
  rw [homeNoWindowing]
  cases hres : load_data_home files A B tp permA permB 1 with
  | error e => trivial
  | ok r =>
    rw [load_data_home] at hres
    rcases hsc : scanHome files A B with ⟨oa, ob⟩
    rw [hsc] at hres
    rcases oa with - | ⟨ax0, ay0⟩
    · simp at hres
    rcases ob with - | ⟨bx0, by0⟩
    · simp at hres
    cases hw1 : (if (1 : ℕ) ≠ 1 then create_windows (ax0.map (fun e => [e])) ay0 1
        else .ok (ax0.map (fun e => [e]), ay0)) with
    | error e1 =>
      rw [if_neg (by norm_num : ¬ (1 : ℕ) ≠ 1)] at hw1
      exact Except.noConfusion hw1
    | ok p1 =>
      cases hw2 : (if (1 : ℕ) ≠ 1 then create_windows (bx0.map (fun e => [e])) by0 1
          else .ok (bx0.map (fun e => [e]), by0)) with
      | error e2 =>
        rw [if_neg (by norm_num : ¬ (1 : ℕ) ≠ 1)] at hw2
        exact Except.noConfusion hw2
      | ok p2 =>
        simp only [hw1, hw2] at hres
        rw [if_neg (by norm_num : ¬ (1 : ℕ) ≠ 1)] at hw1
        injection hw1 with hw1
        rw [if_neg (by norm_num : ¬ (1 : ℕ) ≠ 1)] at hw2
        injection hw2 with hw2
        subst hw1
        subst hw2
        cases hda : domainSplit (ax0.map (fun e => [e])) ay0 permA tp with
        | error e => simp only [hda] at hres; exact Except.noConfusion hres
        | ok sa =>
          cases hdb : domainSplit (bx0.map (fun e => [e])) by0 permB tp with
          | error e => simp only [hda, hdb] at hres; exact Except.noConfusion hres
          | ok sb =>
            simp only [hda, hdb] at hres
            injection hres with hres
            subst hres
            obtain ⟨haLen, haTr, haTe⟩ :=
              domainSplit_singleton ax0 ay0 permA tp sa hA hda
            obtain ⟨hbLen, hbTr, hbTe⟩ :=
              domainSplit_singleton bx0 by0 permB tp sb hB hdb
            refine ⟨⟨haLen, ?_, ?_⟩, ⟨hbLen, ?_, ?_⟩⟩
            · intro h0
              show sa.1.1.length + sa.2.1.length ≠ ax0.length - 1
              omega
            · intro ex hex
              rcases List.mem_append.mp hex with hex | hex
              · exact haTr ex hex
              · exact haTe ex hex
            · intro h0
              show sb.1.1.length + sb.2.1.length ≠ bx0.length - 1
              omega
            · intro ex hex
              rcases List.mem_append.mp hex with hex | hex
              · exact hbTr ex hex
              · exact hbTe ex hex

/-- Witness for C10: two raw domain files of sizes 3 and 1 and range-valued
permutation oracles. -/
theorem C10_home_no_windowing_witness :
    homeNoWindowing [⟨"x", [[1], [2], [3]], [5, 6, 7]⟩, ⟨"y", [[4]], [9]⟩]
      "x" "y" (7/10) (fun n => List.range n) (fun n => List.range n) :=
  C10_home_no_windowing _ "x" "y" (7/10) _ _
    (fun _ => List.Perm.refl _) (fun _ => List.Perm.refl _)

/-! ### Subject-disjointness of the sleep loader (C1) -/

theorem processFile_ok_lengths (f : SleepFile) (r : ℕ × List Mat × List ℕ)
    (h : processFile f = .ok r) : r.2.1.length = r.2.2.length := by
  simp only [processFile] at h
  by_cases h1 : f.stage.length * 750 ≠ ((f.rfRe ++ f.rfIm).headD []).length
  · rw [if_pos h1] at h
    exact Except.noConfusion h
  · rw [if_neg h1] at h
    by_cases h2 : (f.rfRe ++ f.rfIm).length ≠ 10
    · rw [if_pos h2] at h
      exact Except.noConfusion h
    · rw [if_neg h2] at h
      injection h with h
      subst h
      simp

theorem updateSubject_lenInv :
    ∀ (acc : List (ℕ × List Mat × List ℕ)) (s : ℕ) (xs : List Mat) (ys : List ℕ),
    (∀ e ∈ acc, e.2.1.length = e.2.2.length) → xs.length = ys.length →
    ∀ e ∈ updateSubject acc s xs ys, e.2.1.length = e.2.2.length
  | [], s, xs, ys, _, hxy => by
    intro e he
    rw [updateSubject] at he
    obtain rfl := List.mem_singleton.mp he
    exact hxy
  | (t, txs, tys) :: rest, s, xs, ys, hacc, hxy => by
    intro e he
    simp only [updateSubject] at he
    by_cases ht : t = s
    · rw [if_pos ht] at he
      rcases List.mem_cons.mp he with rfl | he2
      · have h1 : txs.length = tys.length := hacc (t, txs, tys) (List.mem_cons_self _ _)
        show (txs ++ xs).length = (tys ++ ys).length
        simp only [List.length_append]
        omega
      · exact hacc e (List.mem_cons_of_mem _ he2)
    · rw [if_neg ht] at he
      rcases List.mem_cons.mp he with rfl | he2
      · exact hacc _ (List.mem_cons_self _ _)
      · exact updateSubject_lenInv rest s xs ys
          (fun x hx => hacc x (List.mem_cons_of_mem _ hx)) hxy e he2

theorem groupFold_lenInv :
    ∀ (files : List SleepFile) (acc g : List (ℕ × List Mat × List ℕ)),
    (∀ e ∈ acc, e.2.1.length = e.2.2.length) →
    groupFold acc files = .ok g →
    ∀ e ∈ g, e.2.1.length = e.2.2.length
  | [], acc, g, hacc, h => by
    injection h with h
    subst h
    exact hacc
  | f :: rest, acc, g, hacc, h => by
    rw [groupFold] at h
    cases hp : processFile f with
    | error e => simp only [hp] at h; exact Except.noConfusion h
    | ok r =>
      simp only [hp] at h
      exact groupFold_lenInv rest _ g
        (updateSubject_lenInv acc r.1 r.2.1 r.2.2 hacc (processFile_ok_lengths f r hp)) h

theorem zip_take_take : ∀ (a : List X) (b : List Y) (n : ℕ),
    (a.take n).zip (b.take n) = (a.zip b).take n
  | [], _, _ => by simp
  | _ :: _, [], _ => by simp
  | _ :: _, _ :: _, 0 => rfl
  | x :: a, y :: b, n+1 => by
    simp only [List.take_succ_cons, List.zip_cons_cons]
    rw [zip_take_take a b n]

theorem zip_drop_drop : ∀ (a : List X) (b : List Y) (n : ℕ),
    (a.drop n).zip (b.drop n) = (a.zip b).drop n
  | [], _, _ => by simp
  | _ :: _, [], _ => by simp
  | _ :: _, _ :: _, 0 => rfl
  | x :: a, y :: b, n+1 => by
    simp only [List.drop_succ_cons, List.zip_cons_cons]
    rw [zip_drop_drop a b n]

theorem flatten_zip_flatten : ∀ (l : List (List X × List Y)),
    (∀ p ∈ l, p.1.length = p.2.length) →
    ((l.map Prod.fst).flatten).zip ((l.map Prod.snd).flatten)
      = (l.map (fun p => p.1.zip p.2)).flatten
  | [], _ => rfl
  | p :: rest, h => by
    simp only [List.map_cons, List.flatten_cons]
    rw [List.zip_append (h p (List.mem_cons_self p rest)),
      flatten_zip_flatten rest (fun q hq => h q (List.mem_cons_of_mem p hq))]

theorem flatten_map_length_eq : ∀ (l : List (List X × List Y)),
    (∀ p ∈ l, p.1.length = p.2.length) →
    ((l.map Prod.fst).flatten).length = ((l.map Prod.snd).flatten).length
  | [], _ => rfl
  | p :: rest, h => by
    simp only [List.map_cons, List.flatten_cons, List.length_append]
    rw [h p (List.mem_cons_self p rest),
      flatten_map_length_eq rest (fun q hq => h q (List.mem_cons_of_mem p hq))]

theorem shuffle_together_eq_map (a : List X) (b : List Y) (randJ : ℕ → ℕ) :
    shuffle_together a b randJ
      = ((fisherYates randJ (a.zip b)).map Prod.fst,
         (fisherYates randJ (a.zip b)).map Prod.snd) := by
  rw [shuffle_together, List.unzip_eq_map]

/-- C1: no subject's examples are split across domains by `load_data_sleep`:
every (example, label) pair of each subject lands entirely in Domain A's
train/test union or entirely in Domain B's. -/
theorem C1_subject_disjoint (files : List SleepFile) (pa tp : ℚ)
    (randJ : ℕ → ℕ) (permA permB : ℕ → List ℕ)
    (hA : ∀ n, (permA n).Perm (List.range n))
    (hB : ∀ n, (permB n).Perm (List.range n)) :
    subjectDisjoint files pa tp randJ permA permB := by
  rw [subjectDisjoint]
  cases hg : groupSubjects files with
  | error e => trivial
  | ok grouped =>
    cases hres : load_data_sleep files pa tp randJ permA permB with
    | error e => trivial
    | ok r =>
      have hinv : ∀ e ∈ grouped, e.2.1.length = e.2.2.length :=
        groupFold_lenInv files [] grouped (by simp) hg
      simp only [load_data_sleep, hg] at hres
      simp only [sleepSplit, shuffle_together_eq_map] at hres
      by_cases hemp : (grouped.map (fun g => g.2.1)).isEmpty = true
      · rw [if_pos hemp] at hres
        exact Except.noConfusion hres
      rw [if_neg hemp] at hres
      generalize hshdef : fisherYates randJ
        ((grouped.map (fun g => g.2.1)).zip (grouped.map (fun g => g.2.2))) = sh at hres
      generalize hde : ceilNat (pa * ((sh.map Prod.fst).length : ℚ)) = de at hres
      have hperm_sh : sh.Perm (grouped.map (fun g => (g.2.1, g.2.2))) := by
        have hp := fisherYates_perm randJ
          ((grouped.map (fun g => g.2.1)).zip (grouped.map (fun g => g.2.2)))
        rw [hshdef, List.zip_map'] at hp
        exact hp
      have hshinv : ∀ p ∈ sh, p.1.length = p.2.length := by
        intro p hp
        obtain ⟨g2, hg2, rfl⟩ := List.mem_map.mp (hperm_sh.mem_iff.mp hp)
        exact hinv g2 hg2
      have htake_inv : ∀ p ∈ sh.take de, p.1.length = p.2.length :=
        fun p hp => hshinv p (List.take_subset _ _ hp)
      have hdrop_inv : ∀ p ∈ sh.drop de, p.1.length = p.2.length :=
        fun p hp => hshinv p (List.drop_subset _ _ hp)
      cases hv1 : vstack ((sh.map Prod.fst).take de) with
      | error e => simp only [hv1] at hres; exact Except.noConfusion hres
      | ok a_x =>
      cases hv2 : vstack ((sh.map Prod.snd).take de) with
      | error e => simp only [hv1, hv2] at hres; exact Except.noConfusion hres
      | ok a_y =>
      cases hv3 : vstack ((sh.map Prod.fst).drop de) with
      | error e => simp only [hv1, hv2, hv3] at hres; exact Except.noConfusion hres
      | ok b_x =>
      cases hv4 : vstack ((sh.map Prod.snd).drop de) with
      | error e => simp only [hv1, hv2, hv3, hv4] at hres; exact Except.noConfusion hres
      | ok b_y =>
      simp only [hv1, hv2, hv3, hv4] at hres
      cases hda : domainSplit a_x a_y permA tp with
      | error e => simp only [hda] at hres; exact Except.noConfusion hres
      | ok sa =>
      cases hdb : domainSplit b_x b_y permB tp with
      | error e => simp only [hda, hdb] at hres; exact Except.noConfusion hres
      | ok sb =>
      simp only [hda, hdb] at hres
      injection hres with hres
      subst hres
      have ha_x := vstack_ok _ _ hv1
      have ha_y := vstack_ok _ _ hv2
      have hb_x := vstack_ok _ _ hv3
      have hb_y := vstack_ok _ _ hv4
      rw [← List.map_take] at ha_x ha_y
      rw [← List.map_drop] at hb_x hb_y
      have ha_len : a_x.length = a_y.length := by
        rw [ha_x, ha_y]
        exact flatten_map_length_eq _ htake_inv
      have hb_len : b_x.length = b_y.length := by
        rw [hb_x, hb_y]
        exact flatten_map_length_eq _ hdrop_inv
      obtain ⟨x2, y2, hsA, hsaEq⟩ := domainSplit_ok_inv a_x a_y permA tp sa hda
      obtain ⟨a2, b2, hok2, hperm2, hlen2a, hlen2b⟩ :=
        shuffle_together_np_spec a_x a_y permA ha_len (hA a_x.length)
      rw [hok2] at hsA
      injection hsA with hsA
      obtain ⟨h1, h2⟩ := Prod.mk.injEq .. |>.mp hsA
      subst h1
      subst h2
      obtain ⟨x3, y3, hsB, hsbEq⟩ := domainSplit_ok_inv b_x b_y permB tp sb hdb
      obtain ⟨c2, d2, hok3, hperm3, hlen3a, hlen3b⟩ :=
        shuffle_together_np_spec b_x b_y permB hb_len (hB b_x.length)
      rw [hok3] at hsB
      injection hsB with hsB
      obtain ⟨h3, h4⟩ := Prod.mk.injEq .. |>.mp hsB
      subst h3
      subst h4
      have hAB : (domainAPairs
          (⟨sa.1.1, sa.1.2, sa.2.1, sa.2.2, sb.1.1, sb.1.2, sb.2.1, sb.2.2⟩ :
            SplitData Mat ℕ)) = a2.zip b2 := by
        rw [domainAPairs]
        show sa.1.1.zip sa.1.2 ++ sa.2.1.zip sa.2.2 = a2.zip b2
        rw [hsaEq]
        simp only [splitTrainTest]
        rw [zip_take_take, zip_drop_drop, List.take_append_drop]
      have hBB : (domainBPairs
          (⟨sa.1.1, sa.1.2, sa.2.1, sa.2.2, sb.1.1, sb.1.2, sb.2.1, sb.2.2⟩ :
            SplitData Mat ℕ)) = c2.zip d2 := by
        rw [domainBPairs]
        show sb.1.1.zip sb.1.2 ++ sb.2.1.zip sb.2.2 = c2.zip d2
        rw [hsbEq]
        simp only [splitTrainTest]
        rw [zip_take_take, zip_drop_drop, List.take_append_drop]
      have hblocksA : a_x.zip a_y = ((sh.take de).map (fun p => p.1.zip p.2)).flatten := by
        rw [ha_x, ha_y]
        exact flatten_zip_flatten _ htake_inv
      have hblocksB : b_x.zip b_y = ((sh.drop de).map (fun p => p.1.zip p.2)).flatten := by
        rw [hb_x, hb_y]
        exact flatten_zip_flatten _ hdrop_inv
      intro e he
      have hmem_sh : (e.2.1, e.2.2) ∈ sh :=
        hperm_sh.mem_iff.mpr (List.mem_map.mpr ⟨e, he, rfl⟩)
      have hsplit2 : (e.2.1, e.2.2) ∈ sh.take de ++ sh.drop de := by
        rw [List.take_append_drop]
        exact hmem_sh
      rcases List.mem_append.mp hsplit2 with hmem | hmem
      · left
        intro p hp
        rw [hAB]
        apply hperm2.mem_iff.mpr
        rw [hblocksA]
        exact List.mem_flatten.mpr
          ⟨e.2.1.zip e.2.2, List.mem_map.mpr ⟨(e.2.1, e.2.2), hmem, rfl⟩, hp⟩
      · right
        intro p hp
        rw [hBB]
        apply hperm3.mem_iff.mpr
        rw [hblocksB]
        exact List.mem_flatten.mpr
          ⟨e.2.1.zip e.2.2, List.mem_map.mpr ⟨(e.2.1, e.2.2), hmem, rfl⟩, hp⟩

set_option maxRecDepth 8000 in
/-- Witness for C1: two well-formed subject files split at
`domain_a_percent = 1/2`, a run on which the loader genuinely succeeds
(both domains nonempty), with range-valued permutation oracles. -/
theorem C1_subject_disjoint_witness :
    subjectDisjoint sleepDemoFiles (1/2) (7/10) (fun i => i)
      (fun n => List.range n) (fun n => List.range n) ∧
    (load_data_sleep sleepDemoFiles (1/2) (7/10) (fun i => i)
      (fun n => List.range n) (fun n => List.range n)).isOk = true :=
  ⟨C1_subject_disjoint sleepDemoFiles (1/2) (7/10) (fun i => i) _ _
      (fun _ => List.Perm.refl _) (fun _ => List.Perm.refl _),
    by with_unfolding_all rfl⟩

end Vrada
